import Mathlib

/-!
Shallow embedding of the ksef-timer-trigger pipeline
(src/modules/list_of_clients.py, src/modules/timer_trigger.py,
src/modules/send_msg_to_queue.py, src/modules/messages_to_queue.py).

Python runtime values are modelled by `PyVal`; exceptions by `PyExc`;
fallible code returns `Except PyExc _`.  Wall-clock time is an `Int`
(seconds since the Unix epoch); `datetime.timedelta` is a number of
seconds.  The ambient `datetime.datetime.utcnow()` is passed explicitly
as a `now : Int` parameter.
-/

set_option maxRecDepth 4000

/-- Python exceptions raised by the modelled code.  Only `RuntimeError`
messages are inspected by the source's callers, so only that
constructor carries its message. -/
inductive PyExc where
  | valueError
  | typeError
  | keyError
  | runtimeError (msg : String)
deriving DecidableEq, Repr

mutual

/-- A Python runtime value, restricted to the types the pipeline touches:
`None`, `bool`, `int`, `str`, `datetime.timedelta` (a non-JSON-serializable
object), lists and string-keyed dicts (in insertion order). -/
inductive PyVal where
  | null
  | bool (b : Bool)
  | int (n : Int)
  | str (s : String)
  | timedelta (seconds : Int)
  | list (xs : PyList)
  | dict (fs : PyFields)
deriving DecidableEq, Repr

/-- A Python list of `PyVal`s. -/
inductive PyList where
  | nil
  | cons (hd : PyVal) (tl : PyList)
deriving DecidableEq, Repr

/-- The entries of a Python dict with string keys, in insertion order. -/
inductive PyFields where
  | nil
  | cons (key : String) (val : PyVal) (tl : PyFields)
deriving DecidableEq, Repr

end

/-- Number of elements of a modelled Python list. -/
def PyList.length : PyList → Nat
  | .nil => 0
  | .cons _ tl => 1 + tl.length

/-- Number of entries of a modelled Python dict. -/
def PyFields.length : PyFields → Nat
  | .nil => 0
  | .cons _ _ tl => 1 + tl.length

/-- First value stored under a key, if any (Python dicts have unique keys). -/
def fieldsLookup : PyFields → String → Option PyVal
  | .nil, _ => Option.none
  | .cons key v tl, k => if k = key then some v else fieldsLookup tl k

/-- `k in d.keys()` for a modelled dict. -/
def fieldsHasKey (fs : PyFields) (k : String) : Bool :=
  (fieldsLookup fs k).isSome

/-- A `datetime.datetime`: wall-clock seconds since the epoch as written,
plus the UTC offset in seconds when the value is timezone-aware
(`tzoffset = none` models a naive datetime). -/
structure PyDatetime where
  wall : Int
  tzoffset : Option Int
deriving DecidableEq, Repr

/-- Value of one decimal digit character. -/
def digitVal (c : Char) : Option Nat :=
  if c.isDigit then some (c.toNat - 48) else Option.none

/-- Gregorian leap year. -/
def isLeapYear (y : Nat) : Bool :=
  y % 4 = 0 && (y % 100 != 0 || y % 400 = 0)

/-- Number of days in a month of the proleptic Gregorian calendar. -/
def daysInMonth (y m : Nat) : Nat :=
  if m = 2 then (if isLeapYear y then 29 else 28)
  else if m = 4 || m = 6 || m = 9 || m = 11 then 30
  else 31

/-- Days from 1970-01-01 to year/month/day (proleptic Gregorian, civil
calendar conversion). -/
def daysSinceEpoch (y m d : Nat) : Int :=
  let yAdj : Nat := if m ≤ 2 then y - 1 else y
  let era : Nat := yAdj / 400
  let yoe : Nat := yAdj % 400
  let mp : Nat := (m + 9) % 12
  let doy : Nat := (153 * mp + 2) / 5 + d - 1
  let doe : Nat := (yoe * 365 + yoe / 4 + doy) - yoe / 100
  (Int.ofNat (era * 146097 + doe)) - 719468

/-- Wall-clock seconds since the epoch of a civil date-time. -/
def wallSeconds (y mo da h mi s : Nat) : Int :=
  86400 * daysSinceEpoch y mo da + Int.ofNat (3600 * h + 60 * mi + s)

/-- Parses the `±HH:MM` timezone suffix accepted by
`datetime.fromisoformat`, returning the offset in seconds. -/
def parseTzSuffix (cs : List Char) : Option (Option Int) :=
  match cs with
  | [] => some Option.none
  | [sg, o1, o2, co, o3, o4] => do
      let a ← digitVal o1
      let b ← digitVal o2
      let c ← digitVal o3
      let d ← digitVal o4
      guard (co = ':')
      let oh := 10 * a + b
      let om := 10 * c + d
      guard (oh ≤ 23 ∧ om ≤ 59)
      let total : Int := Int.ofNat (3600 * oh + 60 * om)
      if sg = '+' then some (some total)
      else if sg = '-' then some (some (-total))
      else Option.none
  | _ => Option.none

/-- Parses the time-of-day part (`HH`, `HH:MM` or `HH:MM:SS`, optionally
followed by a `±HH:MM` offset) of an ISO string, as accepted by
`datetime.fromisoformat` (fractional seconds are not modelled). -/
def parseIsoTime (y mo da : Nat) (cs : List Char) : Option PyDatetime := do
  match cs with
  | h1 :: h2 :: rest =>
      let a ← digitVal h1
      let b ← digitVal h2
      let h := 10 * a + b
      guard (h ≤ 23)
      match rest with
      | ':' :: m1 :: m2 :: rest2 =>
          let c ← digitVal m1
          let d ← digitVal m2
          let mi := 10 * c + d
          guard (mi ≤ 59)
          match rest2 with
          | ':' :: s1 :: s2 :: rest3 =>
              let e ← digitVal s1
              let f ← digitVal s2
              let sec := 10 * e + f
              guard (sec ≤ 59)
              let off ← parseTzSuffix rest3
              some ⟨wallSeconds y mo da h mi sec, off⟩
          | _ =>
              let off ← parseTzSuffix rest2
              some ⟨wallSeconds y mo da h mi 0, off⟩
      | _ =>
          let off ← parseTzSuffix rest
          some ⟨wallSeconds y mo da h 0 0, off⟩
  | _ => Option.none

/-- Parses an ISO-8601 date-time string in the grammar accepted by
`datetime.datetime.fromisoformat` (Python ≤3.10 flavour:
`YYYY-MM-DD[<sep>HH[:MM[:SS]][±HH:MM]]`, where `<sep>` is any single
character; fractional seconds are not modelled). -/
def parseIsoChars (cs : List Char) : Option PyDatetime := do
  match cs with
  | c1 :: c2 :: c3 :: c4 :: s1 :: c5 :: c6 :: s2 :: c7 :: c8 :: rest =>
      let a ← digitVal c1
      let b ← digitVal c2
      let c ← digitVal c3
      let d ← digitVal c4
      let e ← digitVal c5
      let f ← digitVal c6
      let g ← digitVal c7
      let h ← digitVal c8
      guard (s1 = '-' ∧ s2 = '-')
      let y := 1000 * a + 100 * b + 10 * c + d
      let mo := 10 * e + f
      let da := 10 * g + h
      guard (1 ≤ y ∧ 1 ≤ mo ∧ mo ≤ 12 ∧ 1 ≤ da ∧ da ≤ daysInMonth y mo)
      match rest with
      | [] => some ⟨wallSeconds y mo da 0 0 0, Option.none⟩
      | _sep :: timeChars => parseIsoTime y mo da timeChars
  | _ => Option.none

/-- `datetime.datetime.fromisoformat`: `ValueError` on an unparsable
string, `TypeError` on a non-string argument. -/
def fromisoformat (v : PyVal) : Except PyExc PyDatetime :=
  match v with
  | .str s =>
      match parseIsoChars s.data with
      | some d => .ok d
      | Option.none => .error .valueError
  | _ => .error .typeError

/-- Subtraction of two `datetime` objects, yielding a timedelta in
seconds; mixing naive and aware datetimes raises `TypeError`. -/
def pyDatetimeSub (a b : PyDatetime) : Except PyExc Int :=
  match a.tzoffset, b.tzoffset with
  | some oa, some ob => .ok ((a.wall - oa) - (b.wall - ob))
  | Option.none, Option.none => .ok (a.wall - b.wall)
  | _, _ => .error .typeError

/-- `timedelta < other`: defined only against another timedelta,
`TypeError` otherwise. -/
def pyLtTimedelta (d : Int) (w : PyVal) : Except PyExc Bool :=
  match w with
  | .timedelta t => .ok (decide (d < t))
  | _ => .error .typeError

/-- `datetime.datetime.utcnow().replace(tzinfo=datetime.timezone.utc)`:
an aware datetime with zero offset. -/
def utcnowAware (now : Int) : PyDatetime := ⟨now, some 0⟩

/-- `checked_recently` from src/modules/list_of_clients.py (the copy in
src/modules/timer_trigger.py is identical): compares
`utc_now - fromisoformat(datetime_string)` against `target_timedelta`,
returning `False` on `ValueError` and re-raising `TypeError`. -/
def checked_recently (now : Int) (datetime_string target_timedelta : PyVal) :
    Except PyExc Bool :=
  match (do
      let last ← fromisoformat datetime_string
      let diff ← pyDatetimeSub (utcnowAware now) last
      pyLtTimedelta diff target_timedelta : Except PyExc Bool) with
  | .error .valueError => .ok false
  | r => r

/-- The opening curly brace character. -/
def obr : Char := Char.ofNat 123

/-- The closing curly brace character. -/
def cbr : Char := Char.ofNat 125

/-- The single-quote character. -/
def sqc : Char := Char.ofNat 39

/-- Hexadecimal digit character (lowercase), as printed by `json.dumps`. -/
def hexDigitChar (n : Nat) : Char :=
  if n < 10 then Char.ofNat (48 + n) else Char.ofNat (87 + n)

/-- Four lowercase hex digits, as in a `\uXXXX` escape. -/
def hex4 (n : Nat) : List Char :=
  [hexDigitChar (n / 4096 % 16), hexDigitChar (n / 256 % 16),
   hexDigitChar (n / 16 % 16), hexDigitChar (n % 16)]

/-- `\uXXXX` escape of a code point, using a surrogate pair above the BMP,
as `json.dumps` (with its default `ensure_ascii=True`) prints it. -/
def uEscape (c : Char) : List Char :=
  let n := c.toNat
  if n < 65536 then '\\' :: 'u' :: hex4 n
  else
    let m := n - 65536
    '\\' :: 'u' :: hex4 (55296 + m / 1024) ++ '\\' :: 'u' :: hex4 (56320 + m % 1024)

/-- How `json.dumps` prints one character of a string (default
`ensure_ascii=True`): ASCII printable characters pass through, quote and
backslash are backslash-escaped, the five short escapes are used for
control characters that have them, everything else becomes `\uXXXX`. -/
def escapeChar (c : Char) : List Char :=
  if c = '"' then ['\\', '"']
  else if c = '\\' then ['\\', '\\']
  else if c = Char.ofNat 8 then ['\\', 'b']
  else if c = Char.ofNat 9 then ['\\', 't']
  else if c = Char.ofNat 10 then ['\\', 'n']
  else if c = Char.ofNat 12 then ['\\', 'f']
  else if c = Char.ofNat 13 then ['\\', 'r']
  else if c.toNat < 32 ∨ 127 ≤ c.toNat then uEscape c
  else [c]

/-- A JSON string literal as printed by `json.dumps`. -/
def renderJsonString (s : String) : String :=
  String.mk ('"' :: (s.data.map escapeChar).flatten ++ ['"'])

mutual

/-- `json.dumps` on a modelled Python value, with the library defaults
(separators `", "` and `": "`, `ensure_ascii=True`, insertion key order).
A `datetime.timedelta` value is not JSON serializable: `TypeError`. -/
def jsonDumps : PyVal → Except PyExc String
  | .null => .ok "null"
  | .bool true => .ok "true"
  | .bool false => .ok "false"
  | .int n => .ok (toString n)
  | .str s => .ok (renderJsonString s)
  | .timedelta _ => .error .typeError
  | .list xs => do
      let body ← jsonDumpsItems xs
      .ok (String.mk ('[' :: body.data ++ [']']))
  | .dict fs => do
      let body ← jsonDumpsMembers fs
      .ok (String.mk (obr :: body.data ++ [cbr]))

/-- Renders the comma-separated elements of a JSON array. -/
def jsonDumpsItems : PyList → Except PyExc String
  | .nil => .ok ""
  | .cons v .nil => jsonDumps v
  | .cons v tl => do
      let s ← jsonDumps v
      let r ← jsonDumpsItems tl
      .ok (s ++ ", " ++ r)

/-- Renders the comma-separated members of a JSON object. -/
def jsonDumpsMembers : PyFields → Except PyExc String
  | .nil => .ok ""
  | .cons k v .nil => do
      let s ← jsonDumps v
      .ok (renderJsonString k ++ ": " ++ s)
  | .cons k v tl => do
      let s ← jsonDumps v
      let r ← jsonDumpsMembers tl
      .ok (renderJsonString k ++ ": " ++ s ++ ", " ++ r)

end

/-- `QUERY_ELEM_REF_NO: None = None` module constant. -/
def QUERY_ELEM_REF_NO : PyVal := .null

/-- `PART_ELEM_REF_NO: None = None` module constant. -/
def PART_ELEM_REF_NO : PyVal := .null

/-- `ITERATION: int = 0` module constant, never incremented anywhere. -/
def ITERATION : Int := 0

/-- One row of the `query_result` list: the record fields that
`create_list_of_messages` reads (field names as in the source's dicts). -/
structure ConfigRecord where
  PartitionKey : PyVal
  last_successfull_download_run : PyVal
  penultimate_successfull_download_run : PyVal
deriving DecidableEq, Repr

/-- The `message` dict built for one eligible record inside
`create_list_of_messages`, in insertion order. -/
def buildMessage (item : ConfigRecord) : PyVal :=
  .dict (.cons "NIP" item.PartitionKey
    (.cons "last_successful_downloads"
      (.list (.cons item.last_successfull_download_run
        (.cons item.penultimate_successfull_download_run .nil)))
    (.cons "iteration" (.int ITERATION)
    (.cons "query_elem_ref_no" QUERY_ELEM_REF_NO
    (.cons "part_elem_ref_no" PART_ELEM_REF_NO .nil)))))

/-- The record-iterating loop shared by both revisions of
`create_list_of_messages`: for each record, call the eligibility filter
on its `last_successfull_download_run`; when it returns `False`, build
and `json.dumps` the message; exceptions propagate. -/
def messagesLoop (f : PyVal → PyVal → Except PyExc Bool) (w : PyVal) :
    List ConfigRecord → Except PyExc (List String)
  | [] => .ok []
  | item :: rest => do
      let b ← f item.last_successfull_download_run w
      if b then
        messagesLoop f w rest
      else do
        let body ← jsonDumps (buildMessage item)
        let tail ← messagesLoop f w rest
        .ok (body :: tail)

/-- Outcome of the src/modules/list_of_clients.py builder: a normal
return, a `sys.exit(msg)` (`SystemExit`), or a propagated exception. -/
inductive BuildOutcome where
  | ok (msgs : List String)
  | exited (msg : String)
  | raised (e : PyExc)
deriving DecidableEq, Repr

/-- `create_list_of_messages` from src/modules/list_of_clients.py:
filters records through `func_checked_recently`, serializes a message per
eligible record, and calls `sys.exit("No new messages to send.")` when
the resulting list is empty. -/
def create_list_of_messages (func_checked_recently : PyVal → PyVal → Except PyExc Bool)
    (re_run_interval : PyVal) (query_result : List ConfigRecord) : BuildOutcome :=
  match messagesLoop func_checked_recently re_run_interval query_result with
  | .error e => .raised e
  | .ok [] => .exited "No new messages to send."
  | .ok msgs => .ok msgs

/-- `create_list_of_messages` from src/modules/timer_trigger.py: same
loop calling `checked_recently` directly, but no emptiness check — an
all-filtered or empty input yields an ordinary empty list. -/
def timerTriggerCreateListOfMessages (now : Int) (query_result : List ConfigRecord)
    (re_run_interval : PyVal) : Except PyExc (List String) :=
  messagesLoop (checked_recently now) re_run_interval query_result

mutual

/-- Python `str()` of a value, as interpolated by the f-string in
`validate_response_from_storage_table_connector` (container elements are
shown with `repr`, so strings inside containers are quoted). -/
def pyStr : PyVal → String
  | .str s => s
  | v => pyRepr v

/-- Python `repr()` of a modelled value. -/
def pyRepr : PyVal → String
  | .null => "None"
  | .bool true => "True"
  | .bool false => "False"
  | .int n => toString n
  | .str s => String.mk (sqc :: s.data ++ [sqc])
  | .timedelta s => "datetime.timedelta(seconds=" ++ toString s ++ ")"
  | .list xs => String.mk ('[' :: (pyReprItems xs).data ++ [']'])
  | .dict fs => String.mk (obr :: (pyReprMembers fs).data ++ [cbr])

/-- `repr` of the elements of a list. -/
def pyReprItems : PyList → String
  | .nil => ""
  | .cons v .nil => pyRepr v
  | .cons v tl => pyRepr v ++ ", " ++ pyReprItems tl

/-- `repr` of the members of a dict. -/
def pyReprMembers : PyFields → String
  | .nil => ""
  | .cons k v .nil => String.mk (sqc :: k.data ++ [sqc]) ++ ": " ++ pyRepr v
  | .cons k v tl =>
      String.mk (sqc :: k.data ++ [sqc]) ++ ": " ++ pyRepr v ++ ", " ++ pyReprMembers tl

end

/-- `response_json[key]` on the top-level response dict: `KeyError` when
the key is absent. -/
def pySubscript (fs : PyFields) (k : String) : Except PyExc PyVal :=
  match fieldsLookup fs k with
  | some v => .ok v
  | Option.none => .error .keyError

/-- `value[key]` on an arbitrary value: only dicts support string
subscripts; anything else raises `TypeError`. -/
def pyValSubscript (v : PyVal) (k : String) : Except PyExc PyVal :=
  match v with
  | .dict fs => pySubscript fs k
  | _ => .error .typeError

/-- Python `len()`: defined for strings, lists and dicts, `TypeError`
otherwise. -/
def pyLen : PyVal → Except PyExc Nat
  | .str s => .ok s.length
  | .list xs => .ok xs.length
  | .dict fs => .ok fs.length
  | _ => .error .typeError

/-- The key-presence loop of the validator: raise a `RuntimeError` naming
the first mandatory key missing from the response. -/
def checkKeys (ks : List String) (rj : PyFields) : Except PyExc Unit :=
  match ks with
  | [] => .ok ()
  | k :: rest =>
      if fieldsHasKey rj k then checkKeys rest rj
      else .error (.runtimeError
        ("Key " ++ k ++ " missing in response from storage_table_connector."))

/-- `validate_response_from_storage_table_connector` from
src/modules/list_of_clients.py: checks the mandatory keys (default
`["error", "query_result"]`), raises a `RuntimeError` built from
`error["error"]` and `error["message"]` when `error` is not `None`, and a
`RuntimeError` when `query_result` is empty. -/
def validate_response_from_storage_table_connector (response_json : PyFields)
    (mandatory_keys : Option (List String)) : Except PyExc Unit := do
  checkKeys (mandatory_keys.getD ["error", "query_result"]) response_json
  let err ← pySubscript response_json "error"
  match err with
  | .null => do
      let q ← pySubscript response_json "query_result"
      let n ← pyLen q
      if n = 0 then .error (.runtimeError "No records found in ClientsConfig table.")
      else .ok ()
  | e => do
      let code ← pyValSubscript e "error"
      let m ← pyValSubscript e "message"
      .error (.runtimeError (pyStr code ++ ": " ++ pyStr m ++ "."))

/-- Whitespace skipping of the JSON lexer (space, tab, newline, return). -/
def skipWs : List Char → List Char
  | [] => []
  | c :: cs =>
      if c = ' ' ∨ c = Char.ofNat 9 ∨ c = Char.ofNat 10 ∨ c = Char.ofNat 13
      then skipWs cs else c :: cs

/-- Reads a maximal run of decimal digits into a number. -/
def parseDigits : List Char → Nat → Nat × List Char
  | [], acc => (acc, [])
  | c :: cs, acc =>
      if c.isDigit then parseDigits cs (acc * 10 + (c.toNat - 48))
      else (acc, c :: cs)

/-- Reads a nonempty run of decimal digits. -/
def parseNat (cs : List Char) : Option (Nat × List Char) :=
  match cs with
  | c :: _ => if c.isDigit then some (parseDigits cs 0) else Option.none
  | [] => Option.none

/-- Value of a hexadecimal digit character. -/
def hexVal (c : Char) : Option Nat :=
  if c.isDigit then some (c.toNat - 48)
  else if 'a' ≤ c ∧ c ≤ 'f' then some (c.toNat - 87)
  else if 'A' ≤ c ∧ c ≤ 'F' then some (c.toNat - 55)
  else Option.none

/-- Reads four hex digits into a code unit. -/
def hex4Val (h1 h2 h3 h4 : Char) : Option Nat := do
  let a ← hexVal h1
  let b ← hexVal h2
  let c ← hexVal h3
  let d ← hexVal h4
  some (4096 * a + 256 * b + 16 * c + d)

mutual

/-- Reads the body of a quoted string literal (after the opening quote
`q`, up to the next unescaped `q`), decoding backslash escapes.  The
accumulator holds the decoded characters in reverse. -/
def parseQuotedAux (q : Char) : List Char → List Char → Option (String × List Char)
  | [], _ => Option.none
  | c :: cs, acc =>
      if c = q then some (String.mk acc.reverse, cs)
      else if c = '\\' then parseEsc q cs acc
      else parseQuotedAux q cs (c :: acc)

/-- Decodes one backslash escape (the backslash already consumed),
including `\uXXXX` with surrogate-pair recombination. -/
def parseEsc (q : Char) : List Char → List Char → Option (String × List Char)
  | [], _ => Option.none
  | e :: cs2, acc =>
      if e = 'u' then
        match cs2 with
        | h1 :: h2 :: h3 :: h4 :: cs3 =>
            match hex4Val h1 h2 h3 h4 with
            | Option.none => Option.none
            | some n =>
                if 55296 ≤ n ∧ n < 56320 then
                  match cs3 with
                  | '\\' :: 'u' :: k1 :: k2 :: k3 :: k4 :: cs4 =>
                      match hex4Val k1 k2 k3 k4 with
                      | Option.none => Option.none
                      | some m =>
                          if 56320 ≤ m ∧ m < 57344 then
                            parseQuotedAux q cs4
                              (Char.ofNat (65536 + 1024 * (n - 55296) + (m - 56320)) :: acc)
                          else Option.none
                  | _ => Option.none
                else parseQuotedAux q cs3 (Char.ofNat n :: acc)
        | _ => Option.none
      else if e = '"' ∨ e = '\\' ∨ e = '/' ∨ e = sqc then parseQuotedAux q cs2 (e :: acc)
      else if e = 'b' then parseQuotedAux q cs2 (Char.ofNat 8 :: acc)
      else if e = 't' then parseQuotedAux q cs2 (Char.ofNat 9 :: acc)
      else if e = 'n' then parseQuotedAux q cs2 (Char.ofNat 10 :: acc)
      else if e = 'f' then parseQuotedAux q cs2 (Char.ofNat 12 :: acc)
      else if e = 'r' then parseQuotedAux q cs2 (Char.ofNat 13 :: acc)
      else Option.none

end

mutual

/-- Fuel-indexed recursive-descent parser for the JSON (`py = false`) or
Python-literal (`py = true`) value grammar the pipeline exchanges: `null`
(`None`), booleans, integers, double-quoted (also single-quoted, for
Python literals) strings, arrays and string-keyed objects.  Floats are
not modelled (the pipeline never produces them). -/
def parseVal (py : Bool) : Nat → List Char → Option (PyVal × List Char)
  | 0, _ => Option.none
  | n + 1, cs =>
      match cs with
      | [] => Option.none
      | c :: cs2 =>
          if c = '"' then
            match parseQuotedAux '"' cs2 [] with
            | some (s, r) => some (.str s, r)
            | Option.none => Option.none
          else if py ∧ c = sqc then
            match parseQuotedAux sqc cs2 [] with
            | some (s, r) => some (.str s, r)
            | Option.none => Option.none
          else if c = obr then
            match skipWs cs2 with
            | d :: r => if d = cbr then some (.dict .nil, r)
                        else (parseMembers py n (d :: r)).map
                          (fun p => (PyVal.dict p.1, p.2))
            | [] => Option.none
          else if c = '[' then
            match skipWs cs2 with
            | ']' :: r => some (.list .nil, r)
            | r => (parseItems py n r).map (fun p => (PyVal.list p.1, p.2))
          else if py then
            match cs with
            | 'N' :: 'o' :: 'n' :: 'e' :: r => some (.null, r)
            | 'T' :: 'r' :: 'u' :: 'e' :: r => some (.bool true, r)
            | 'F' :: 'a' :: 'l' :: 's' :: 'e' :: r => some (.bool false, r)
            | '-' :: r =>
                match parseNat r with
                | some (m, r2) => some (.int (-(m : Int)), r2)
                | Option.none => Option.none
            | _ =>
                if c.isDigit then
                  match parseNat cs with
                  | some (m, r2) => some (.int (m : Int), r2)
                  | Option.none => Option.none
                else Option.none
          else
            match cs with
            | 'n' :: 'u' :: 'l' :: 'l' :: r => some (.null, r)
            | 't' :: 'r' :: 'u' :: 'e' :: r => some (.bool true, r)
            | 'f' :: 'a' :: 'l' :: 's' :: 'e' :: r => some (.bool false, r)
            | '-' :: r =>
                match parseNat r with
                | some (m, r2) => some (.int (-(m : Int)), r2)
                | Option.none => Option.none
            | _ =>
                if c.isDigit then
                  match parseNat cs with
                  | some (m, r2) => some (.int (m : Int), r2)
                  | Option.none => Option.none
                else Option.none

/-- Parses the elements of a nonempty array, starting at the first
element and ending just after the closing bracket. -/
def parseItems (py : Bool) : Nat → List Char → Option (PyList × List Char)
  | 0, _ => Option.none
  | n + 1, cs => do
      let (v, r) ← parseVal py n (skipWs cs)
      match skipWs r with
      | c :: r2 =>
          if c = ',' then do
            let (tl, r3) ← parseItems py n r2
            some (.cons v tl, r3)
          else if c = ']' then some (.cons v .nil, r2)
          else Option.none
      | [] => Option.none

/-- Parses the members of a nonempty object, starting at the first key
and ending just after the closing brace. -/
def parseMembers (py : Bool) : Nat → List Char → Option (PyFields × List Char)
  | 0, _ => Option.none
  | n + 1, cs => do
      let (k, r) ←
        match cs with
        | c :: cs2 =>
            if c = '"' then parseQuotedAux '"' cs2 []
            else if py ∧ c = sqc then parseQuotedAux sqc cs2 []
            else Option.none
        | [] => Option.none
      match skipWs r with
      | c :: r2 =>
          if c = ':' then do
            let (v, r3) ← parseVal py n (skipWs r2)
            match skipWs r3 with
            | d :: r4 =>
                if d = ',' then do
                  let (tl, r5) ← parseMembers py n (skipWs r4)
                  some (.cons k v tl, r5)
                else if d = cbr then some (.cons k v .nil, r4)
                else Option.none
            | [] => Option.none
          else Option.none
      | [] => Option.none

end

/-- `json.loads`: parse a full document, allowing surrounding whitespace
and rejecting trailing content.  `Option.none` models `ValueError`
(`json.JSONDecodeError`). -/
def jsonLoads (s : String) : Option PyVal :=
  match parseVal false (s.length + 1) (skipWs s.data) with
  | some (v, rest) => if skipWs rest = [] then some v else Option.none
  | Option.none => Option.none

/-- `ast.literal_eval`, modelled on the literal shapes this pipeline
exchanges: Python dict/list/str/int/bool/`None` literals with single- or
double-quoted strings (tuples, floats, sets and string concatenation are
outside the model; the pipeline never produces them). -/
def pyLiteralEval (s : String) : Except PyExc PyVal :=
  match parseVal true (s.length + 1) (skipWs s.data) with
  | some (v, rest) => if skipWs rest = [] then .ok v else .error .valueError
  | Option.none => .error .valueError

/-- `get_iteration_int` from src/modules/send_msg_to_queue.py: parse the
message with `json.loads` and subscript `"iteration"`; on a `ValueError`
from parsing, retry with `ast.literal_eval`, wrapping any failure of that
fallback into a `ValueError`.  (A `KeyError` from the subscript on the
`json.loads` path is not caught.) -/
def get_iteration_int (message_json : String) : Except PyExc PyVal :=
  match jsonLoads message_json with
  | some v => pyValSubscript v "iteration"
  | Option.none =>
      match (do
          let v ← pyLiteralEval message_json
          pyValSubscript v "iteration" : Except PyExc PyVal) with
      | .ok i => .ok i
      | .error _ => .error .valueError

/-- `calculate_delay_minutes` from src/modules/send_msg_to_queue.py:
`delay_minutes = iteration * multiplier`. -/
def calculate_delay_minutes (iteration multiplier : Int) : Int :=
  iteration * multiplier

/-- `iteration * delay_multiplier` where `iteration` came from a parsed
message: only an int is accepted by the subsequent
`datetime.timedelta(minutes=...)` construction; anything else ends in a
`TypeError`. -/
def pyIterTimes (v : PyVal) (k : Int) : Except PyExc Int :=
  match v with
  | .int n => .ok (n * k)
  | _ => .error .typeError

/-- `get_scheduled_enqueue_time_utc` from src/modules/messages_to_queue.py:
parse `iteration` out of the message (with the same `ast.literal_eval`
fallback on `ValueError`, errors of the fallback propagating raw) and
return `utcnow() + timedelta(minutes=iteration * delay_multiplier)` as
epoch seconds. -/
def get_scheduled_enqueue_time_utc (now : Int) (message_str : String)
    (delay_multiplier : Int) : Except PyExc Int := do
  let it ←
    match jsonLoads message_str with
    | some v => pyValSubscript v "iteration"
    | Option.none => do
        let v ← pyLiteralEval message_str
        pyValSubscript v "iteration"
  let d ← pyIterTimes it delay_multiplier
  .ok (now + 60 * d)

/-- The records `create_list_of_messages` keeps: those for which the
eligibility filter answers `False` (without raising). -/
def eligibleRecords (f : PyVal → PyVal → Except PyExc Bool) (w : PyVal)
    (qr : List ConfigRecord) : List ConfigRecord :=
  qr.filter (fun item =>
    match f item.last_successfull_download_run w with
    | .ok false => true
    | _ => false)

/-- A character `json.dumps` passes through verbatim: printable ASCII
that is neither a quote nor a backslash. -/
def safeChar (c : Char) : Bool :=
  decide (32 ≤ c.toNat) && decide (c.toNat < 127) && (c != '"') && (c != '\\')

/-- A string made only of pass-through characters. -/
def jsonSafeStr (s : String) : Bool :=
  s.data.all safeChar

mutual

/-- The value shapes this pipeline actually serializes and for which the
serialize-then-parse round trip is proved: `None`, booleans, the
iteration constant `0`, pass-through ASCII strings, and lists/dicts
thereof (with pass-through keys). -/
def jsonSafe : PyVal → Bool
  | .null => true
  | .bool _ => true
  | .int n => decide (n = 0)
  | .str s => jsonSafeStr s
  | .timedelta _ => false
  | .list xs => jsonSafeItems xs
  | .dict fs => jsonSafeMembers fs

/-- `jsonSafe` on every element. -/
def jsonSafeItems : PyList → Bool
  | .nil => true
  | .cons v tl => jsonSafe v && jsonSafeItems tl

/-- `jsonSafe` on every value, pass-through keys. -/
def jsonSafeMembers : PyFields → Bool
  | .nil => true
  | .cons k v tl => jsonSafeStr k && jsonSafe v && jsonSafeMembers tl

end

mutual

/-- Parser fuel sufficient to parse a rendered value. -/
def needVal : PyVal → Nat
  | .list xs => 1 + needItems xs
  | .dict fs => 1 + needMembers fs
  | _ => 1

/-- Parser fuel sufficient to parse rendered array elements. -/
def needItems : PyList → Nat
  | .nil => 1
  | .cons v tl => 1 + max (needVal v) (needItems tl)

/-- Parser fuel sufficient to parse rendered object members. -/
def needMembers : PyFields → Nat
  | .nil => 1
  | .cons _ v tl => 1 + max (needVal v) (needMembers tl)

end

/-- A continuation that cannot extend a numeric token: empty or starting
with a non-digit. -/
def GoodTail (rest : List Char) : Prop :=
  ∀ c cs, rest = c :: cs → c.isDigit = false

/-- A JSON whitespace character. -/
def wsChar (c : Char) : Bool :=
  (c = ' ' : Bool) || (c = Char.ofNat 9 : Bool) ||
  (c = Char.ofNat 10 : Bool) || (c = Char.ofNat 13 : Bool)

theorem exceptBindOk {α β ε : Type} (a : α) (f : α → Except ε β) :
    (Except.ok a >>= f : Except ε β) = f a := rfl

theorem exceptBindErr {α β ε : Type} (e : ε) (f : α → Except ε β) :
    (Except.error e >>= f : Except ε β) = Except.error e := rfl

theorem fromisoformat_parsed {s : String} {d : PyDatetime}
    (hp : parseIsoChars s.data = some d) :
    fromisoformat (PyVal.str s) = .ok d := by
  simp only [fromisoformat]
  rw [hp]

theorem fromisoformat_unparsable {s : String}
    (hp : parseIsoChars s.data = Option.none) :
    fromisoformat (PyVal.str s) = .error .valueError := by
  simp only [fromisoformat]
  rw [hp]

theorem pyLtTimedelta_not_timedelta {d : Int} {w : PyVal}
    (hw : ∀ t, w ≠ PyVal.timedelta t) :
    pyLtTimedelta d w = .error .typeError := by
  cases w <;> first
    | rfl
    | exact absurd rfl (hw _)

/-- C1: the claim says that for `last_checked` null, absent, or the
sentinel string "null", `checked_recently` returns `false` for every
window and never raises.  That holds for the sentinel string (first
conjunct), but for a genuine Python `None` the code raises the
`TypeError` coming out of `fromisoformat` (it is caught and re-raised),
contradicting both the claim and the repository's own test
`test_checked_recently_none_datetime_string` (second conjunct). -/
theorem checked_recently_null_sentinel_vs_none_input :
    (∀ (now : Int) (w : PyVal),
      checked_recently now (PyVal.str "null") w = .ok false) ∧
    checked_recently 0 PyVal.null (PyVal.timedelta 7200) =
      .error .typeError :=
  ⟨fun _ _ => rfl, rfl⟩

/-- C2: for every string that `fromisoformat` parses as an aware (UTC
offset carrying) timestamp, and every positive window, `checked_recently`
returns `true` exactly when the elapsed duration `now_utc - last_checked`
is strictly below the window; in particular a timestamp exactly `window`
old yields `false` (the boundary is exclusive). -/
theorem checked_recently_strict_window (now wall off w : Int) (s : String)
    (hp : parseIsoChars s.data = some ⟨wall, some off⟩) (hw : 0 < w) :
    checked_recently now (PyVal.str s) (PyVal.timedelta w) =
      .ok (decide (now - (wall - off) < w)) ∧
    (now - (wall - off) = w →
      checked_recently now (PyVal.str s) (PyVal.timedelta w) = .ok false) := by
  have hmain : checked_recently now (PyVal.str s) (PyVal.timedelta w) =
      .ok (decide (now - (wall - off) < w)) := by
    unfold checked_recently
    rw [fromisoformat_parsed hp]
    simp only [exceptBindOk, pyDatetimeSub, utcnowAware, pyLtTimedelta, sub_zero]
  refine ⟨hmain, fun heq => ?_⟩
  rw [hmain, heq]
  simp

/-- Witness for C2 at the exclusive boundary: `now` is exactly two hours
(the window) after the parsed timestamp, and the filter answers `false`. -/
theorem checked_recently_strict_window_witness :
    checked_recently 14400 (PyVal.str "1970-01-01T02:00:00+00:00")
      (PyVal.timedelta 7200) = .ok false :=
  (checked_recently_strict_window 14400 7200 0 7200
    "1970-01-01T02:00:00+00:00" rfl (by decide)).2 rfl

/-- C3: the claim (and the repository's own test
`test_checked_recently_invalid_datetime_string`) says a non-sentinel
unparsable string such as "invalid" raises a parse error; the code
instead absorbs the `ValueError` and silently returns `false`, for every
current time and every window. -/
theorem checked_recently_invalid_returns_false :
    ∀ (now : Int) (w : PyVal),
      checked_recently now (PyVal.str "invalid") w = .ok false :=
  fun _ _ => rfl

/-- C9 counterexample: with the unparsable sentinel "null" as
`last_checked` and the non-duration window `5`, `checked_recently`
returns the boolean `false` instead of raising a type error, because the
`ValueError` branch fires before the window is ever compared. -/
theorem checked_recently_bad_window_counterexample :
    checked_recently 0 (PyVal.str "null") (PyVal.int 5) = .ok false := rfl

/-- C9 amended: whenever `last_checked` is not an unparsable string (it
is a non-string, or a string `fromisoformat` accepts), a window that is
not a `timedelta` makes `checked_recently` raise a `TypeError`; only the
unparsable-string case returns `false` before examining the window. -/
theorem checked_recently_bad_window_raises (now : Int) (ds w : PyVal)
    (hw : ∀ t, w ≠ PyVal.timedelta t)
    (hd : ∀ s, ds = PyVal.str s → (parseIsoChars s.data).isSome = true) :
    checked_recently now ds w = .error .typeError := by
  cases ds with
  | str s =>
      have h := hd s rfl
      cases hp : parseIsoChars s.data with
      | none => rw [hp] at h; simp at h
      | some d =>
          obtain ⟨wall, off⟩ := d
          cases off with
          | none =>
              unfold checked_recently
              rw [fromisoformat_parsed hp]
              simp only [exceptBindOk, pyDatetimeSub, utcnowAware, exceptBindErr]
          | some o =>
              unfold checked_recently
              rw [fromisoformat_parsed hp]
              simp only [exceptBindOk, pyDatetimeSub, utcnowAware,
                pyLtTimedelta_not_timedelta hw]
  | null => rfl
  | bool b => rfl
  | int n => rfl
  | timedelta t => rfl
  | list xs => rfl
  | dict fs => rfl

/-- Witness for the amended C9: a perfectly valid aware timestamp with an
integer window raises `TypeError`. -/
theorem condTrue {α : Type} (x y : α) : (if (true : Bool) then x else y) = x := rfl

theorem condFalse {α : Type} (x y : α) : (if (false : Bool) then x else y) = y := rfl

theorem messagesLoop_all_filtered (f : PyVal → PyVal → Except PyExc Bool)
    (w : PyVal) (qr : List ConfigRecord)
    (h : ∀ item ∈ qr, f item.last_successfull_download_run w = .ok true) :
    messagesLoop f w qr = .ok [] := by
  induction qr with
  | nil => rfl
  | cons item rest ih =>
      have hf := h item (List.mem_cons_self item rest)
      simp only [messagesLoop]
      rw [hf, exceptBindOk, condTrue]
      exact ih (fun it hm => h it (List.mem_cons_of_mem _ hm))

theorem messagesLoop_forall₂ (f : PyVal → PyVal → Except PyExc Bool)
    (w : PyVal) (qr : List ConfigRecord) (msgs : List String)
    (h : messagesLoop f w qr = .ok msgs) :
    List.Forall₂ (fun item body => jsonDumps (buildMessage item) = .ok body)
      (eligibleRecords f w qr) msgs := by
  induction qr generalizing msgs with
  | nil =>
      simp only [messagesLoop, Except.ok.injEq] at h
      subst h
      exact List.Forall₂.nil
  | cons item rest ih =>
      simp only [messagesLoop] at h
      cases hf : f item.last_successfull_download_run w with
      | error e => rw [hf, exceptBindErr] at h; exact absurd h (by simp)
      | ok b =>
          rw [hf, exceptBindOk] at h
          cases b with
          | true =>
              rw [condTrue] at h
              have := ih _ h
              simpa [eligibleRecords, hf] using this
          | false =>
              rw [condFalse] at h
              cases hd : jsonDumps (buildMessage item) with
              | error e => rw [hd, exceptBindErr] at h; exact absurd h (by simp)
              | ok body =>
                  rw [hd, exceptBindOk] at h
                  cases ht : messagesLoop f w rest with
                  | error e => rw [ht, exceptBindErr] at h; exact absurd h (by simp)
                  | ok tail =>
                      rw [ht, exceptBindOk] at h
                      simp only [Except.ok.injEq] at h
                      subst h
                      have htail := ih _ ht
                      have hcons : List.Forall₂
                          (fun item body => jsonDumps (buildMessage item) = .ok body)
                          (item :: eligibleRecords f w rest) (body :: tail) :=
                        List.Forall₂.cons hd htail
                      simpa [eligibleRecords, hf] using hcons

theorem messagesLoop_bad_record_errors (f : PyVal → PyVal → Except PyExc Bool)
    (w : PyVal) (qr : List ConfigRecord) (item : ConfigRecord) (e0 : PyExc)
    (hmem : item ∈ qr)
    (helig : f item.last_successfull_download_run w = .ok false)
    (hser : jsonDumps (buildMessage item) = .error e0) :
    ∃ e, messagesLoop f w qr = .error e := by
  induction qr with
  | nil => cases hmem
  | cons a rest ih =>
      rcases List.mem_cons.mp hmem with heq | hmem'
      · subst heq
        refine ⟨e0, ?_⟩
        simp only [messagesLoop]
        rw [helig, exceptBindOk, condFalse, hser, exceptBindErr]
      · cases hf : f a.last_successfull_download_run w with
        | error e =>
            refine ⟨e, ?_⟩
            simp only [messagesLoop]
            rw [hf, exceptBindErr]
        | ok b =>
            cases b with
            | true =>
                obtain ⟨e, he⟩ := ih hmem'
                refine ⟨e, ?_⟩
                simp only [messagesLoop]
                rw [hf, exceptBindOk, condTrue]
                exact he
            | false =>
                cases hd : jsonDumps (buildMessage a) with
                | error e2 =>
                    refine ⟨e2, ?_⟩
                    simp only [messagesLoop]
                    rw [hf, exceptBindOk, condFalse, hd, exceptBindErr]
                | ok body =>
                    obtain ⟨e, he⟩ := ih hmem'
                    refine ⟨e, ?_⟩
                    simp only [messagesLoop]
                    rw [hf, exceptBindOk, condFalse, hd, exceptBindOk, he,
                      exceptBindErr]

/-- C4 counterexample: the src/modules/timer_trigger.py revision of
`create_list_of_messages` (explicitly cited by the claim) returns an
ordinary empty successful list — not a distinguished "nothing to do"
outcome — on an input whose single record was checked recently (half an
hour ago, within the two-hour window). -/
theorem timer_trigger_empty_is_plain_return :
    timerTriggerCreateListOfMessages 1800
      [⟨.str "1111111111", .str "1970-01-01T00:00:00+00:00", .null⟩]
      (PyVal.timedelta 7200) = .ok [] := rfl

/-- C4 amended: the src/modules/list_of_clients.py revision does
terminate with the distinguished `sys.exit("No new messages to send.")`
outcome — distinct from a raised error and from an ordinary return —
whenever every record is filtered out (and on the empty input); the
src/modules/timer_trigger.py revision instead returns an ordinary empty
list in the same situation, leaving the no-work distinction to its
caller. -/
theorem create_list_of_messages_no_work (f : PyVal → PyVal → Except PyExc Bool)
    (w : PyVal) (qr : List ConfigRecord)
    (h : ∀ item ∈ qr, f item.last_successfull_download_run w = .ok true) :
    create_list_of_messages f w qr = .exited "No new messages to send." ∧
    create_list_of_messages f w [] = .exited "No new messages to send." ∧
    ∀ now : Int,
      (∀ item ∈ qr, checked_recently now item.last_successfull_download_run w = .ok true) →
      timerTriggerCreateListOfMessages now qr w = .ok [] := by
  refine ⟨?_, rfl, fun now hn => ?_⟩
  · unfold create_list_of_messages
    rw [messagesLoop_all_filtered f w qr h]
  · unfold timerTriggerCreateListOfMessages
    exact messagesLoop_all_filtered _ w qr hn

/-- Witness for the amended C4: one recently-checked record makes the
list_of_clients builder exit and the timer_trigger builder return `[]`. -/
theorem create_list_of_messages_no_work_witness :
    create_list_of_messages (checked_recently 1800) (PyVal.timedelta 7200)
      [⟨.str "1111111111", .str "1970-01-01T00:00:00+00:00", .null⟩] =
      .exited "No new messages to send." ∧
    timerTriggerCreateListOfMessages 1800
      [⟨.str "1111111111", .str "1970-01-01T00:00:00+00:00", .null⟩]
      (PyVal.timedelta 7200) = .ok [] := by
  have h := create_list_of_messages_no_work (checked_recently 1800)
    (PyVal.timedelta 7200)
    [⟨.str "1111111111", .str "1970-01-01T00:00:00+00:00", .null⟩]
    (by intro item hm; rcases List.mem_singleton.mp hm with rfl; rfl)
  exact ⟨h.1, h.2.2 1800 (by intro item hm; rcases List.mem_singleton.mp hm with rfl; rfl)⟩

/-- C5: when `create_list_of_messages` returns normally, its output is in
bijective order-preserving correspondence with the eligible records (the
records, in input order, on which the filter answered `False`): the k-th
output message is the serialization of the message built from the k-th
eligible record. -/
theorem create_list_of_messages_order (f : PyVal → PyVal → Except PyExc Bool)
    (w : PyVal) (qr : List ConfigRecord) (msgs : List String)
    (h : create_list_of_messages f w qr = .ok msgs) :
    List.Forall₂ (fun item body => jsonDumps (buildMessage item) = .ok body)
      (eligibleRecords f w qr) msgs := by
  unfold create_list_of_messages at h
  cases hl : messagesLoop f w qr with
  | error e => rw [hl] at h; exact absurd h (by simp)
  | ok l =>
      rw [hl] at h
      cases l with
      | nil => exact absurd h (by simp)
      | cons m ms =>
          simp only [BuildOutcome.ok.injEq] at h
          subst h
          exact messagesLoop_forall₂ f w qr _ hl

/-- Witness for C5 on a three-record input whose middle record is
filtered out: the two messages come from the first and third records, in
that order. -/
theorem create_list_of_messages_order_witness :
    List.Forall₂ (fun item body => jsonDumps (buildMessage item) = .ok body)
      (eligibleRecords (checked_recently 10000) (PyVal.timedelta 7200)
        [⟨.str "A", .str "null", .null⟩,
         ⟨.str "B", .str "1970-01-01T02:00:00+00:00", .null⟩,
         ⟨.str "C", .str "None", .null⟩])
      ["\x7b\"NIP\": \"A\", \"last_successful_downloads\": [\"null\", null], \"iteration\": 0, \"query_elem_ref_no\": null, \"part_elem_ref_no\": null\x7d",
       "\x7b\"NIP\": \"C\", \"last_successful_downloads\": [\"None\", null], \"iteration\": 0, \"query_elem_ref_no\": null, \"part_elem_ref_no\": null\x7d"] :=
  create_list_of_messages_order (checked_recently 10000) (PyVal.timedelta 7200)
    [⟨.str "A", .str "null", .null⟩,
     ⟨.str "B", .str "1970-01-01T02:00:00+00:00", .null⟩,
     ⟨.str "C", .str "None", .null⟩] _ rfl

/-- C7: a record whose message `json.dumps` rejects (a field that is not
JSON-representable) is never skipped silently: if such a record is in the
input and the filter lets it through, the whole build raises, for every
input list containing it. -/
theorem create_list_of_messages_bad_record_raises
    (f : PyVal → PyVal → Except PyExc Bool) (w : PyVal)
    (qr : List ConfigRecord) (item : ConfigRecord) (e0 : PyExc)
    (hmem : item ∈ qr)
    (helig : f item.last_successfull_download_run w = .ok false)
    (hser : jsonDumps (buildMessage item) = .error e0) :
    ∃ e, create_list_of_messages f w qr = .raised e := by
  obtain ⟨e, he⟩ := messagesLoop_bad_record_errors f w qr item e0 hmem helig hser
  refine ⟨e, ?_⟩
  unfold create_list_of_messages
  rw [he]

/-- Witness for C7: a record whose `PartitionKey` is a
`datetime.timedelta` object (not JSON-representable) fails the whole
build with the propagated `TypeError`. -/
theorem create_list_of_messages_bad_record_raises_witness :
    ∃ e, create_list_of_messages (checked_recently 0) (PyVal.timedelta 7200)
      [⟨.timedelta 1, .str "null", .null⟩] = .raised e :=
  create_list_of_messages_bad_record_raises (checked_recently 0)
    (PyVal.timedelta 7200) [⟨.timedelta 1, .str "null", .null⟩]
    ⟨.timedelta 1, .str "null", .null⟩ .typeError
    (List.mem_singleton.mpr rfl) rfl rfl

/-- C6: the validator's full contract on its default mandatory keys.
A missing `"error"` or `"query_result"` key raises a `RuntimeError`
naming that key; a non-null `error` object raises a `RuntimeError`
carrying its embedded `error` code and `message`; an empty
`query_result` raises the "no records found" `RuntimeError`; and a
response with both keys, a null `error` and a nonempty `query_result`
passes without error. -/
theorem validate_response_contract :
    (∀ rj : PyFields, fieldsHasKey rj "error" = false →
      validate_response_from_storage_table_connector rj Option.none =
        .error (.runtimeError
          "Key error missing in response from storage_table_connector.")) ∧
    (∀ rj : PyFields, fieldsHasKey rj "error" = true →
      fieldsHasKey rj "query_result" = false →
      validate_response_from_storage_table_connector rj Option.none =
        .error (.runtimeError
          "Key query_result missing in response from storage_table_connector.")) ∧
    (∀ (rj efs : PyFields) (code m : PyVal),
      fieldsLookup rj "error" = some (.dict efs) →
      fieldsHasKey rj "query_result" = true →
      fieldsLookup efs "error" = some code →
      fieldsLookup efs "message" = some m →
      validate_response_from_storage_table_connector rj Option.none =
        .error (.runtimeError (pyStr code ++ ": " ++ pyStr m ++ "."))) ∧
    (∀ (rj : PyFields) (xs : PyList),
      fieldsLookup rj "error" = some .null →
      fieldsLookup rj "query_result" = some (.list xs) →
      (xs = .nil →
        validate_response_from_storage_table_connector rj Option.none =
          .error (.runtimeError "No records found in ClientsConfig table.")) ∧
      (∀ hd tl, xs = .cons hd tl →
        validate_response_from_storage_table_connector rj Option.none = .ok ())) := by
  refine ⟨fun rj h => ?_, fun rj h1 h2 => ?_,
    fun rj efs code m h1 h2 h3 h4 => ?_, fun rj xs h1 h2 => ⟨fun hnil => ?_, fun hd tl hcons => ?_⟩⟩
  · simp only [validate_response_from_storage_table_connector, Option.getD, checkKeys]
    rw [h, condFalse, exceptBindErr]
    rfl
  · simp only [validate_response_from_storage_table_connector, Option.getD, checkKeys]
    rw [h1, condTrue, h2, condFalse, exceptBindErr]
    rfl
  · have hk : fieldsHasKey rj "error" = true := by
      simp [fieldsHasKey, h1]
    simp only [validate_response_from_storage_table_connector, Option.getD, checkKeys]
    rw [hk, condTrue, h2, condTrue, exceptBindOk]
    simp only [pySubscript, h1, exceptBindOk, pyValSubscript, pySubscript, h3,
      exceptBindOk, h4]
  · subst hnil
    have hk : fieldsHasKey rj "error" = true := by
      simp [fieldsHasKey, h1]
    have hk2 : fieldsHasKey rj "query_result" = true := by
      simp [fieldsHasKey, h2]
    simp only [validate_response_from_storage_table_connector, Option.getD, checkKeys]
    rw [hk, condTrue, hk2, condTrue, exceptBindOk]
    simp only [pySubscript, h1, exceptBindOk, h2, pyLen, PyList.length]
    simp
  · subst hcons
    have hk : fieldsHasKey rj "error" = true := by
      simp [fieldsHasKey, h1]
    have hk2 : fieldsHasKey rj "query_result" = true := by
      simp [fieldsHasKey, h2]
    simp only [validate_response_from_storage_table_connector, Option.getD, checkKeys]
    rw [hk, condTrue, hk2, condTrue, exceptBindOk]
    simp only [pySubscript, h1, exceptBindOk, h2, pyLen, PyList.length]
    simp

/-- Witness for C6, covering all four branches on concrete responses,
including the spec's Forbidden/denied scenario. -/
theorem validate_response_contract_witness :
    validate_response_from_storage_table_connector
      (.cons "query_result" (.list .nil) .nil) Option.none =
      .error (.runtimeError
        "Key error missing in response from storage_table_connector.") ∧
    validate_response_from_storage_table_connector
      (.cons "error" .null .nil) Option.none =
      .error (.runtimeError
        "Key query_result missing in response from storage_table_connector.") ∧
    validate_response_from_storage_table_connector
      (.cons "error" (.dict (.cons "error" (.str "Forbidden")
          (.cons "message" (.str "denied") .nil)))
        (.cons "query_result" (.list .nil) .nil)) Option.none =
      .error (.runtimeError "Forbidden: denied.") ∧
    validate_response_from_storage_table_connector
      (.cons "error" .null (.cons "query_result" (.list .nil) .nil)) Option.none =
      .error (.runtimeError "No records found in ClientsConfig table.") ∧
    validate_response_from_storage_table_connector
      (.cons "error" .null
        (.cons "query_result" (.list (.cons (.str "record1") .nil)) .nil)) Option.none =
      .ok () :=
  ⟨validate_response_contract.1 (.cons "query_result" (.list .nil) .nil) rfl,
   validate_response_contract.2.1 (.cons "error" .null .nil) rfl rfl,
   validate_response_contract.2.2.1
     (.cons "error" (.dict (.cons "error" (.str "Forbidden")
         (.cons "message" (.str "denied") .nil)))
       (.cons "query_result" (.list .nil) .nil))
     (.cons "error" (.str "Forbidden") (.cons "message" (.str "denied") .nil))
     (.str "Forbidden") (.str "denied") rfl rfl rfl rfl,
   (validate_response_contract.2.2.2
     (.cons "error" .null (.cons "query_result" (.list .nil) .nil))
     .nil rfl rfl).1 rfl,
   (validate_response_contract.2.2.2
     (.cons "error" .null
       (.cons "query_result" (.list (.cons (.str "record1") .nil)) .nil))
     (.cons (.str "record1") .nil) rfl rfl).2 (.str "record1") .nil rfl⟩

theorem checked_recently_bad_window_raises_witness :
    checked_recently 0 (PyVal.str "1970-01-01T00:00:00+00:00")
      (PyVal.int 5) = .error .typeError :=
  checked_recently_bad_window_raises 0
    (PyVal.str "1970-01-01T00:00:00+00:00") (PyVal.int 5)
    (fun t h => PyVal.noConfusion h)
    (fun s hs => by injection hs with h; rw [← h]; rfl)

theorem strDataAppend (a b : String) : (a ++ b).data = a.data ++ b.data := rfl

theorem mkData (l : List Char) : (String.mk l).data = l := rfl

theorem one_le_needVal (v : PyVal) : 1 ≤ needVal v := by
  cases v <;> simp [needVal]

theorem one_le_needItems (xs : PyList) : 1 ≤ needItems xs := by
  cases xs <;> simp [needItems]

theorem one_le_needMembers (fs : PyFields) : 1 ≤ needMembers fs := by
  cases fs <;> simp [needMembers]

theorem parseDigits_stop (rest : List Char) (acc : Nat) (ht : GoodTail rest) :
    parseDigits rest acc = (acc, rest) := by
  cases rest with
  | nil => rfl
  | cons c cs =>
      unfold parseDigits
      rw [ht c cs rfl, condFalse]

theorem skipWs_cons {c : Char} (l : List Char) (h : wsChar c = false) :
    skipWs (c :: l) = c :: l := by
  unfold skipWs
  rw [if_neg]
  intro hc
  simp only [wsChar, Bool.or_eq_false_iff, decide_eq_false_iff_not] at h
  rcases hc with h1 | h1 | h1 | h1 <;> tauto

theorem escapeChar_safe {c : Char} (h : safeChar c = true) : escapeChar c = [c] := by
  simp only [safeChar, Bool.and_eq_true, decide_eq_true_eq, bne_iff_ne] at h
  obtain ⟨⟨⟨h1, h2⟩, h3⟩, h4⟩ := h
  have n8 : ¬(c = Char.ofNat 8) := fun heq => by
    rw [heq] at h1; exact absurd h1 (by decide)
  have n9 : ¬(c = Char.ofNat 9) := fun heq => by
    rw [heq] at h1; exact absurd h1 (by decide)
  have n10 : ¬(c = Char.ofNat 10) := fun heq => by
    rw [heq] at h1; exact absurd h1 (by decide)
  have n12 : ¬(c = Char.ofNat 12) := fun heq => by
    rw [heq] at h1; exact absurd h1 (by decide)
  have n13 : ¬(c = Char.ofNat 13) := fun heq => by
    rw [heq] at h1; exact absurd h1 (by decide)
  have nrange : ¬(c.toNat < 32 ∨ 127 ≤ c.toNat) := by
    intro h5; rcases h5 with h5 | h5 <;> omega
  unfold escapeChar
  rw [if_neg h3, if_neg h4, if_neg n8, if_neg n9, if_neg n10, if_neg n12,
    if_neg n13, if_neg nrange]

theorem escape_flatten {cs : List Char} (h : cs.all safeChar = true) :
    (cs.map escapeChar).flatten = cs := by
  induction cs with
  | nil => rfl
  | cons c cs' ih =>
      simp only [List.all_cons, Bool.and_eq_true] at h
      simp only [List.map_cons, List.flatten_cons, escapeChar_safe h.1, ih h.2]
      rfl

theorem renderJsonString_safe {s : String} (h : jsonSafeStr s = true) :
    (renderJsonString s).data = '"' :: s.data ++ ['"'] := by
  unfold renderJsonString
  rw [mkData, escape_flatten h]

theorem parseQuotedAux_safe (cs : List Char) (h : cs.all safeChar = true)
    (acc rest : List Char) :
    parseQuotedAux '"' (cs ++ '"' :: rest) acc =
      some (String.mk (acc.reverse ++ cs), rest) := by
  induction cs generalizing acc with
  | nil => simp only [List.nil_append, List.append_nil, parseQuotedAux, if_pos]
  | cons c cs' ih =>
      simp only [List.all_cons, Bool.and_eq_true] at h
      have hsc := h.1
      simp only [safeChar, Bool.and_eq_true, decide_eq_true_eq, bne_iff_ne] at hsc
      obtain ⟨⟨⟨_, _⟩, h3⟩, h4⟩ := hsc
      simp only [List.cons_append, parseQuotedAux]
      rw [if_neg h3, if_neg h4]
      simp only [List.append_eq]
      rw [ih h.2]
      simp

theorem skipWs_space (l : List Char) : skipWs (' ' :: l) = skipWs l := by
  unfold skipWs
  rw [if_pos (Or.inl rfl)]
  cases l <;> rfl

theorem jsonDumps_head {v : PyVal} {r : String} (hs : jsonSafe v = true)
    (hd : jsonDumps v = .ok r) :
    ∃ c cs', r.data = c :: cs' ∧ wsChar c = false ∧ c ≠ ']' := by
  cases v with
  | null =>
      simp only [jsonDumps, Except.ok.injEq] at hd
      subst hd
      exact ⟨'n', ['u', 'l', 'l'], rfl, by decide, by decide⟩
  | bool b =>
      cases b <;>
        (simp only [jsonDumps, Except.ok.injEq] at hd; subst hd)
      · exact ⟨'f', ['a', 'l', 's', 'e'], rfl, by decide, by decide⟩
      · exact ⟨'t', ['r', 'u', 'e'], rfl, by decide, by decide⟩
  | int n =>
      simp only [jsonSafe, decide_eq_true_eq] at hs
      subst hs
      simp only [jsonDumps, Except.ok.injEq] at hd
      subst hd
      exact ⟨'0', [], rfl, by decide, by decide⟩
  | str s =>
      simp only [jsonDumps, Except.ok.injEq] at hd
      subst hd
      exact ⟨'"', (s.data.map escapeChar).flatten ++ ['"'], rfl, by decide, by decide⟩
  | timedelta t => simp [jsonSafe] at hs
  | list xs =>
      simp only [jsonDumps] at hd
      cases hi : jsonDumpsItems xs with
      | error e => rw [hi, exceptBindErr] at hd; exact Except.noConfusion hd
      | ok body =>
          rw [hi, exceptBindOk] at hd
          simp only [Except.ok.injEq] at hd
          subst hd
          exact ⟨'[', body.data ++ [']'], rfl, by decide, by decide⟩
  | dict fs =>
      simp only [jsonDumps] at hd
      cases hi : jsonDumpsMembers fs with
      | error e => rw [hi, exceptBindErr] at hd; exact Except.noConfusion hd
      | ok body =>
          rw [hi, exceptBindOk] at hd
          simp only [Except.ok.injEq] at hd
          subst hd
          exact ⟨obr, body.data ++ [cbr], rfl, by decide, by decide⟩

theorem jsonDumpsItems_head {xs : PyList} {r : String}
    (hs : jsonSafeItems xs = true) (hd : jsonDumpsItems xs = .ok r)
    (hne : xs ≠ PyList.nil) :
    ∃ c cs', r.data = c :: cs' ∧ wsChar c = false ∧ c ≠ ']' := by
  cases xs with
  | nil => exact absurd rfl hne
  | cons v tl =>
      simp only [jsonSafeItems, Bool.and_eq_true] at hs
      cases tl with
      | nil =>
          simp only [jsonDumpsItems] at hd
          exact jsonDumps_head hs.1 hd
      | cons v2 tl2 =>
          simp only [jsonDumpsItems] at hd
          cases hv : jsonDumps v with
          | error e => rw [hv, exceptBindErr] at hd; exact Except.noConfusion hd
          | ok s1 =>
              rw [hv, exceptBindOk] at hd
              cases ht : jsonDumpsItems (.cons v2 tl2) with
              | error e => rw [ht, exceptBindErr] at hd; exact Except.noConfusion hd
              | ok s2 =>
                  rw [ht, exceptBindOk] at hd
                  simp only [Except.ok.injEq] at hd
                  subst hd
                  obtain ⟨c, cs', hc, hw2, hne2⟩ := jsonDumps_head hs.1 hv
                  refine ⟨c, cs' ++ ", ".data ++ s2.data, ?_, hw2, hne2⟩
                  rw [strDataAppend, strDataAppend, hc]
                  simp

theorem optionBindSome {α β : Type} (a : α) (f : α → Option β) :
    (some a >>= f) = f a := rfl

theorem jsonDumpsMembers_head {fs : PyFields} {r : String}
    (hd : jsonDumpsMembers fs = .ok r) (hne : fs ≠ PyFields.nil) :
    ∃ cs', r.data = '"' :: cs' := by
  cases fs with
  | nil => exact absurd rfl hne
  | cons k0 v tl =>
      cases tl with
      | nil =>
          simp only [jsonDumpsMembers] at hd
          cases hv : jsonDumps v with
          | error e => rw [hv, exceptBindErr] at hd; exact Except.noConfusion hd
          | ok s1 =>
              rw [hv, exceptBindOk] at hd
              simp only [Except.ok.injEq] at hd
              subst hd
              refine ⟨((k0.data.map escapeChar).flatten ++ ['"']) ++ (": " ++ s1).data, ?_⟩
              rw [strDataAppend, strDataAppend]
              simp [renderJsonString, mkData]
      | cons k1 v1 tl2 =>
          simp only [jsonDumpsMembers] at hd
          cases hv : jsonDumps v with
          | error e => rw [hv, exceptBindErr] at hd; exact Except.noConfusion hd
          | ok s1 =>
              rw [hv, exceptBindOk] at hd
              cases ht : jsonDumpsMembers (.cons k1 v1 tl2) with
              | error e => rw [ht, exceptBindErr] at hd; exact Except.noConfusion hd
              | ok s2 =>
                  rw [ht, exceptBindOk] at hd
                  simp only [Except.ok.injEq] at hd
                  subst hd
                  refine ⟨((k0.data.map escapeChar).flatten ++ ['"']) ++
                    (": " ++ s1 ++ ", " ++ s2).data, ?_⟩
                  rw [strDataAppend, strDataAppend, strDataAppend, strDataAppend]
                  simp [renderJsonString, mkData]

mutual

theorem roundVal (v : PyVal) : ∀ (r : String), jsonSafe v = true →
    jsonDumps v = .ok r → ∀ (n : Nat) (rest : List Char), needVal v ≤ n →
    GoodTail rest → parseVal false n (r.data ++ rest) = some (v, rest) := by
  intro r hs hd n rest hn ht
  obtain ⟨k, rfl⟩ : ∃ k, n = k + 1 := ⟨n - 1, by have := one_le_needVal v; omega⟩
  cases v with
  | null =>
      simp only [jsonDumps, Except.ok.injEq] at hd
      subst hd
      rfl
  | bool b =>
      cases b <;> (simp only [jsonDumps, Except.ok.injEq] at hd; subst hd) <;> rfl
  | int m =>
      simp only [jsonSafe, decide_eq_true_eq] at hs
      subst hs
      simp only [jsonDumps, Except.ok.injEq] at hd
      subst hd
      show parseVal false (k + 1) ('0' :: rest) = some (.int 0, rest)
      simp only [parseVal]
      rw [if_neg (by decide), if_neg (by simp), if_neg (by decide),
        if_neg (by decide), condFalse]
      have hp : parseNat ('0' :: rest) = some (0, rest) := by
        simp only [parseNat]
        rw [if_pos (by decide)]
        simp only [parseDigits]
        rw [if_pos (by decide)]
        have hz : 0 * 10 + ('0'.toNat - 48) = 0 := by decide
        rw [hz, parseDigits_stop rest 0 ht]
      split
      · rename_i heq
        injection heq with h1 _
        exact absurd h1 (by decide)
      · rename_i heq
        injection heq with h1 _
        exact absurd h1 (by decide)
      · rename_i heq
        injection heq with h1 _
        exact absurd h1 (by decide)
      · rename_i heq
        injection heq with h1 _
        exact absurd h1 (by decide)
      · rw [if_pos (by decide), hp]
        rfl
  | str s =>
      simp only [jsonSafe] at hs
      simp only [jsonDumps, Except.ok.injEq] at hd
      subst hd
      rw [renderJsonString_safe hs]
      simp only [List.cons_append, parseVal, if_true]
      rw [List.append_assoc, List.singleton_append, parseQuotedAux_safe s.data hs []]
      simp
  | timedelta t => simp [jsonSafe] at hs
  | list xs =>
      simp only [jsonSafe] at hs
      simp only [jsonDumps] at hd
      cases hi : jsonDumpsItems xs with
      | error e => rw [hi, exceptBindErr] at hd; exact Except.noConfusion hd
      | ok body =>
          rw [hi, exceptBindOk] at hd
          simp only [Except.ok.injEq] at hd
          subst hd
          simp only [needVal] at hn
          rw [mkData]
          simp only [List.cons_append, List.append_assoc, List.singleton_append,
            List.nil_append, parseVal]
          rw [if_neg (by decide), if_neg (by simp), if_neg (by decide),
            if_pos (by trivial)]
          cases xs with
          | nil =>
              simp only [jsonDumpsItems, Except.ok.injEq] at hi
              subst hi
              show (match skipWs (']' :: rest) with
                | ']' :: r => some (PyVal.list PyList.nil, r)
                | r => (parseItems false k r).map (fun p => (PyVal.list p.1, p.2))) =
                some (PyVal.list PyList.nil, rest)
              rw [skipWs_cons _ (by decide)]
              rfl
          | cons v tl =>
              obtain ⟨c, cs', hc, hwc, hnc⟩ := jsonDumpsItems_head hs hi
                (fun h => PyList.noConfusion h)
              rw [hc]
              simp only [List.cons_append]
              rw [skipWs_cons _ hwc]
              split
              · rename_i heq
                injection heq with h1 _
                exact absurd h1 hnc
              · have hpi := roundItems (PyList.cons v tl) body hs hi
                  (fun h => PyList.noConfusion h) k rest
                  (c :: (cs' ++ ']' :: rest)) (by omega)
                  (by rw [skipWs_cons _ hwc, hc]; simp)
                rw [hpi]
                rfl
  | dict fs =>
      simp only [jsonSafe] at hs
      simp only [jsonDumps] at hd
      cases hi : jsonDumpsMembers fs with
      | error e => rw [hi, exceptBindErr] at hd; exact Except.noConfusion hd
      | ok body =>
          rw [hi, exceptBindOk] at hd
          simp only [Except.ok.injEq] at hd
          subst hd
          simp only [needVal] at hn
          rw [mkData]
          simp only [List.cons_append, List.append_assoc, List.singleton_append,
            List.nil_append, parseVal]
          rw [if_neg (by decide), if_neg (by simp), if_pos (by trivial)]
          cases fs with
          | nil =>
              simp only [jsonDumpsMembers, Except.ok.injEq] at hi
              subst hi
              show (match skipWs (cbr :: rest) with
                | d :: r =>
                    if d = cbr then some (PyVal.dict PyFields.nil, r)
                    else (parseMembers false k (d :: r)).map
                      (fun p => (PyVal.dict p.1, p.2))
                | [] => Option.none) = some (PyVal.dict PyFields.nil, rest)
              rw [skipWs_cons _ (by decide)]
              simp
          | cons k0 v tl =>
              obtain ⟨cs', hc⟩ := jsonDumpsMembers_head hi
                (fun h => PyFields.noConfusion h)
              rw [hc]
              simp only [List.cons_append]
              rw [skipWs_cons _ (by decide)]
              have hpm := roundMembers (PyFields.cons k0 v tl) body hs hi
                (fun h => PyFields.noConfusion h) k rest (by omega)
              rw [hc] at hpm
              simp only [List.cons_append] at hpm
              split
              · rename_i heq
                injection heq with h1 h2
                subst h1
                subst h2
                rw [if_neg (by decide), hpm]
                rfl
              · rename_i heq
                exact List.noConfusion heq

theorem roundItems (xs : PyList) : ∀ (r : String), jsonSafeItems xs = true →
    jsonDumpsItems xs = .ok r → xs ≠ PyList.nil →
    ∀ (n : Nat) (rest cs : List Char), needItems xs ≤ n →
    skipWs cs = r.data ++ ']' :: rest →
    parseItems false n cs = some (xs, rest) := by
  intro r hs hd hne n rest cs hn hcs
  obtain ⟨k, rfl⟩ : ∃ k, n = k + 1 := ⟨n - 1, by have := one_le_needItems xs; omega⟩
  cases xs with
  | nil => exact absurd rfl hne
  | cons v tl =>
      simp only [jsonSafeItems, Bool.and_eq_true] at hs
      simp only [needItems] at hn
      simp only [parseItems]
      rw [hcs]
      cases tl with
      | nil =>
          simp only [jsonDumpsItems] at hd
          have hv := roundVal v r hs.1 hd k (']' :: rest) (by omega)
            (fun c cs h => by injection h with h1 _; rw [← h1]; decide)
          rw [hv, optionBindSome]
          rw [skipWs_cons _ (by decide)]
          rfl
      | cons v2 tl2 =>
          simp only [jsonDumpsItems] at hd
          cases hv : jsonDumps v with
          | error e => rw [hv, exceptBindErr] at hd; exact Except.noConfusion hd
          | ok s1 =>
              rw [hv, exceptBindOk] at hd
              cases ht2 : jsonDumpsItems (.cons v2 tl2) with
              | error e => rw [ht2, exceptBindErr] at hd; exact Except.noConfusion hd
              | ok s2 =>
                  rw [ht2, exceptBindOk] at hd
                  simp only [Except.ok.injEq] at hd
                  subst hd
                  have hdata : (s1 ++ ", " ++ s2).data ++ ']' :: rest =
                      s1.data ++ (',' :: ' ' :: (s2.data ++ ']' :: rest)) := by
                    rw [strDataAppend, strDataAppend]
                    simp
                  rw [hdata]
                  have hv' := roundVal v s1 hs.1 hv k
                    (',' :: ' ' :: (s2.data ++ ']' :: rest)) (by omega)
                    (fun c cs h => by injection h with h1 _; rw [← h1]; decide)
                  rw [hv', optionBindSome]
                  rw [skipWs_cons _ (by decide)]
                  obtain ⟨c2, cs2', hc2, hw2, hn2⟩ := jsonDumpsItems_head hs.2 ht2
                    (fun h => PyList.noConfusion h)
                  have htl := roundItems (PyList.cons v2 tl2) s2 hs.2 ht2
                    (fun h => PyList.noConfusion h) k rest
                    (' ' :: (s2.data ++ ']' :: rest)) (by omega)
                    (by rw [skipWs_space, hc2]; simp only [List.cons_append]
                        rw [skipWs_cons _ hw2])
                  simp only []
                  rw [if_pos (by trivial), htl, optionBindSome]

theorem roundMembers (fs : PyFields) : ∀ (r : String), jsonSafeMembers fs = true →
    jsonDumpsMembers fs = .ok r → fs ≠ PyFields.nil →
    ∀ (n : Nat) (rest : List Char), needMembers fs ≤ n →
    parseMembers false n (r.data ++ cbr :: rest) = some (fs, rest) := by
  intro r hs hd hne n rest hn
  obtain ⟨k, rfl⟩ : ∃ k, n = k + 1 := ⟨n - 1, by have := one_le_needMembers fs; omega⟩
  cases fs with
  | nil => exact absurd rfl hne
  | cons k0 v tl =>
      simp only [jsonSafeMembers, Bool.and_eq_true] at hs
      obtain ⟨⟨hk0, hv0⟩, htl0⟩ := hs
      simp only [needMembers] at hn
      cases tl with
      | nil =>
          simp only [jsonDumpsMembers] at hd
          cases hv : jsonDumps v with
          | error e => rw [hv, exceptBindErr] at hd; exact Except.noConfusion hd
          | ok s1 =>
              rw [hv, exceptBindOk] at hd
              simp only [Except.ok.injEq] at hd
              subst hd
              have hdata : (renderJsonString k0 ++ ": " ++ s1).data ++ cbr :: rest =
                  '"' :: (k0.data ++ ('"' :: ':' :: ' ' :: (s1.data ++ cbr :: rest))) := by
                rw [strDataAppend, strDataAppend, renderJsonString_safe hk0]
                simp
              rw [hdata]
              simp only [parseMembers]
              rw [if_pos (by trivial), parseQuotedAux_safe k0.data hk0 []]
              simp only [List.reverse_nil, List.nil_append, optionBindSome]
              rw [skipWs_cons _ (by decide)]
              simp only []
              rw [if_pos (by trivial)]
              obtain ⟨cv, csv, hcv, hwv, _⟩ := jsonDumps_head hv0 hv
              have hsk1 : skipWs (' ' :: (s1.data ++ cbr :: rest)) =
                  s1.data ++ cbr :: rest := by
                rw [skipWs_space, hcv]
                simp only [List.cons_append]
                rw [skipWs_cons _ hwv]
              have hv' := roundVal v s1 hv0 hv k (cbr :: rest) (by omega)
                (fun c cs h => by injection h with h1 _; rw [← h1]; decide)
              rw [hsk1, hv', optionBindSome]
              rw [skipWs_cons _ (by decide)]
              simp only []
              rw [if_neg (by decide), if_pos (by trivial)]
      | cons k1 v1 tl2 =>
          simp only [jsonDumpsMembers] at hd
          cases hv : jsonDumps v with
          | error e => rw [hv, exceptBindErr] at hd; exact Except.noConfusion hd
          | ok s1 =>
              rw [hv, exceptBindOk] at hd
              cases ht2 : jsonDumpsMembers (.cons k1 v1 tl2) with
              | error e => rw [ht2, exceptBindErr] at hd; exact Except.noConfusion hd
              | ok s2 =>
                  rw [ht2, exceptBindOk] at hd
                  simp only [Except.ok.injEq] at hd
                  subst hd
                  have hdata : (renderJsonString k0 ++ ": " ++ s1 ++ ", " ++ s2).data ++
                      cbr :: rest =
                      '"' :: (k0.data ++ ('"' :: ':' :: ' ' ::
                        (s1.data ++ (',' :: ' ' :: (s2.data ++ cbr :: rest))))) := by
                    rw [strDataAppend, strDataAppend, strDataAppend, strDataAppend,
                      renderJsonString_safe hk0]
                    simp
                  rw [hdata]
                  simp only [parseMembers]
                  rw [if_pos (by trivial), parseQuotedAux_safe k0.data hk0 []]
                  simp only [List.reverse_nil, List.nil_append, optionBindSome]
                  rw [skipWs_cons _ (by decide)]
                  simp only []
                  rw [if_pos (by trivial)]
                  obtain ⟨cv, csv, hcv, hwv, _⟩ := jsonDumps_head hv0 hv
                  have hsk1 : skipWs (' ' :: (s1.data ++
                      (',' :: ' ' :: (s2.data ++ cbr :: rest)))) =
                      s1.data ++ (',' :: ' ' :: (s2.data ++ cbr :: rest)) := by
                    rw [skipWs_space, hcv]
                    simp only [List.cons_append]
                    rw [skipWs_cons _ hwv]
                  have hv' := roundVal v s1 hv0 hv k
                    (',' :: ' ' :: (s2.data ++ cbr :: rest)) (by omega)
                    (fun c cs h => by injection h with h1 _; rw [← h1]; decide)
                  rw [hsk1, hv', optionBindSome]
                  rw [skipWs_cons _ (by decide)]
                  simp only []
                  rw [if_pos (by trivial)]
                  obtain ⟨cs2', hc2⟩ := jsonDumpsMembers_head ht2
                    (fun h => PyFields.noConfusion h)
                  have htl := roundMembers (PyFields.cons k1 v1 tl2) s2 htl0 ht2
                    (fun h => PyFields.noConfusion h) k rest (by omega)
                  have hsk : skipWs (' ' :: (s2.data ++ cbr :: rest)) =
                      s2.data ++ cbr :: rest := by
                    rw [skipWs_space, hc2]
                    simp only [List.cons_append]
                    rw [skipWs_cons _ (by decide)]
                  rw [hsk, htl, optionBindSome]

end

mutual

theorem needVal_le_length (v : PyVal) : ∀ (r : String), jsonSafe v = true →
    jsonDumps v = .ok r → needVal v ≤ r.length := by
  intro r hs hd
  cases v with
  | null =>
      obtain ⟨c, cs', hc, _, _⟩ := jsonDumps_head hs hd
      have : r.length = cs'.length + 1 := by
        show r.data.length = cs'.length + 1
        rw [hc]
        rfl
      simp only [needVal]
      omega
  | bool b =>
      obtain ⟨c, cs', hc, _, _⟩ := jsonDumps_head hs hd
      have : r.length = cs'.length + 1 := by
        show r.data.length = cs'.length + 1
        rw [hc]
        rfl
      simp only [needVal]
      omega
  | int m =>
      obtain ⟨c, cs', hc, _, _⟩ := jsonDumps_head hs hd
      have : r.length = cs'.length + 1 := by
        show r.data.length = cs'.length + 1
        rw [hc]
        rfl
      simp only [needVal]
      omega
  | str s =>
      obtain ⟨c, cs', hc, _, _⟩ := jsonDumps_head hs hd
      have : r.length = cs'.length + 1 := by
        show r.data.length = cs'.length + 1
        rw [hc]
        rfl
      simp only [needVal]
      omega
  | timedelta t => simp [jsonSafe] at hs
  | list xs =>
      simp only [jsonSafe] at hs
      simp only [jsonDumps] at hd
      cases hi : jsonDumpsItems xs with
      | error e => rw [hi, exceptBindErr] at hd; exact Except.noConfusion hd
      | ok body =>
          rw [hi, exceptBindOk] at hd
          simp only [Except.ok.injEq] at hd
          subst hd
          have hlen : (String.mk ('[' :: body.data ++ [']'])).length =
              body.length + 2 := by
            show ('[' :: body.data ++ [']']).length = body.data.length + 2
            simp
          have := needItems_le_length xs body hs hi
          simp only [needVal]
          omega
  | dict fs =>
      simp only [jsonSafe] at hs
      simp only [jsonDumps] at hd
      cases hi : jsonDumpsMembers fs with
      | error e => rw [hi, exceptBindErr] at hd; exact Except.noConfusion hd
      | ok body =>
          rw [hi, exceptBindOk] at hd
          simp only [Except.ok.injEq] at hd
          subst hd
          have hlen : (String.mk (obr :: body.data ++ [cbr])).length =
              body.length + 2 := by
            show (obr :: body.data ++ [cbr]).length = body.data.length + 2
            simp
          have := needMembers_le_length fs body hs hi
          simp only [needVal]
          omega

theorem needItems_le_length (xs : PyList) : ∀ (r : String),
    jsonSafeItems xs = true → jsonDumpsItems xs = .ok r →
    needItems xs ≤ r.length + 1 := by
  intro r hs hd
  cases xs with
  | nil => simp [needItems]
  | cons v tl =>
      simp only [jsonSafeItems, Bool.and_eq_true] at hs
      cases tl with
      | nil =>
          simp only [jsonDumpsItems] at hd
          have h1 := needVal_le_length v r hs.1 hd
          have h2 := one_le_needVal v
          simp only [needItems]
          omega
      | cons v2 tl2 =>
          simp only [jsonDumpsItems] at hd
          cases hv : jsonDumps v with
          | error e => rw [hv, exceptBindErr] at hd; exact Except.noConfusion hd
          | ok s1 =>
              rw [hv, exceptBindOk] at hd
              cases ht2 : jsonDumpsItems (.cons v2 tl2) with
              | error e => rw [ht2, exceptBindErr] at hd; exact Except.noConfusion hd
              | ok s2 =>
                  rw [ht2, exceptBindOk] at hd
                  simp only [Except.ok.injEq] at hd
                  subst hd
                  have h1 := needVal_le_length v s1 hs.1 hv
                  have h2 := needItems_le_length (.cons v2 tl2) s2 hs.2 ht2
                  have h3 := one_le_needVal v
                  have hlen : (s1 ++ ", " ++ s2).length =
                      s1.length + s2.length + 2 := by
                    simp only [String.length_append]
                    have : (", " : String).length = 2 := rfl
                    omega
                  simp only [needItems] at *
                  omega

theorem needMembers_le_length (fs : PyFields) : ∀ (r : String),
    jsonSafeMembers fs = true → jsonDumpsMembers fs = .ok r →
    needMembers fs ≤ r.length + 1 := by
  intro r hs hd
  cases fs with
  | nil => simp [needMembers]
  | cons k0 v tl =>
      simp only [jsonSafeMembers, Bool.and_eq_true] at hs
      obtain ⟨⟨hk0, hv0⟩, htl0⟩ := hs
      cases tl with
      | nil =>
          simp only [jsonDumpsMembers] at hd
          cases hv : jsonDumps v with
          | error e => rw [hv, exceptBindErr] at hd; exact Except.noConfusion hd
          | ok s1 =>
              rw [hv, exceptBindOk] at hd
              simp only [Except.ok.injEq] at hd
              subst hd
              have h1 := needVal_le_length v s1 hv0 hv
              have h2 := one_le_needVal v
              have hlen : (renderJsonString k0 ++ ": " ++ s1).length =
                  (renderJsonString k0).length + s1.length + 2 := by
                simp only [String.length_append]
                have : (": " : String).length = 2 := rfl
                omega
              simp only [needMembers] at *
              omega
      | cons k1 v1 tl2 =>
          simp only [jsonDumpsMembers] at hd
          cases hv : jsonDumps v with
          | error e => rw [hv, exceptBindErr] at hd; exact Except.noConfusion hd
          | ok s1 =>
              rw [hv, exceptBindOk] at hd
              cases ht2 : jsonDumpsMembers (.cons k1 v1 tl2) with
              | error e => rw [ht2, exceptBindErr] at hd; exact Except.noConfusion hd
              | ok s2 =>
                  rw [ht2, exceptBindOk] at hd
                  simp only [Except.ok.injEq] at hd
                  subst hd
                  have h1 := needVal_le_length v s1 hv0 hv
                  have h2 := needMembers_le_length (.cons k1 v1 tl2) s2 htl0 ht2
                  have h3 := one_le_needVal v
                  have hlen : (renderJsonString k0 ++ ": " ++ s1 ++ ", " ++ s2).length =
                      (renderJsonString k0).length + s1.length + s2.length + 4 := by
                    simp only [String.length_append]
                    have e1 : (": " : String).length = 2 := rfl
                    have e2 : (", " : String).length = 2 := rfl
                    omega
                  simp only [needMembers] at *
                  omega

end

theorem jsonLoads_dumps {v : PyVal} {body : String} (hs : jsonSafe v = true)
    (hd : jsonDumps v = .ok body) : jsonLoads body = some v := by
  have hrv := roundVal v body hs hd (body.length + 1) []
    (by have := needVal_le_length v body hs hd; omega)
    (fun c cs h => List.noConfusion h)
  rw [List.append_nil] at hrv
  obtain ⟨c, cs', hc, hwc, _⟩ := jsonDumps_head hs hd
  unfold jsonLoads
  rw [hc, skipWs_cons _ hwc, ← hc, hrv]
  rfl

theorem buildMessage_nip (item : ConfigRecord) :
    pyValSubscript (buildMessage item) "NIP" = .ok item.PartitionKey := rfl

theorem buildMessage_downloads (item : ConfigRecord) :
    pyValSubscript (buildMessage item) "last_successful_downloads" =
      .ok (.list (.cons item.last_successfull_download_run
        (.cons item.penultimate_successfull_download_run .nil))) := rfl

theorem buildMessage_iteration (item : ConfigRecord) :
    pyValSubscript (buildMessage item) "iteration" = .ok (.int 0) := rfl

theorem buildMessage_safe (item : ConfigRecord)
    (h1 : jsonSafe item.PartitionKey = true)
    (h2 : jsonSafe item.last_successfull_download_run = true)
    (h3 : jsonSafe item.penultimate_successfull_download_run = true) :
    jsonSafe (buildMessage item) = true := by
  have k1 : jsonSafeStr "NIP" = true := by decide
  have k2 : jsonSafeStr "last_successful_downloads" = true := by decide
  have k3 : jsonSafeStr "iteration" = true := by decide
  have k4 : jsonSafeStr "query_elem_ref_no" = true := by decide
  have k5 : jsonSafeStr "part_elem_ref_no" = true := by decide
  simp [buildMessage, jsonSafe, jsonSafeMembers, jsonSafeItems,
    QUERY_ELEM_REF_NO, PART_ELEM_REF_NO, ITERATION, k1, k2, k3, k4, k5,
    h1, h2, h3]

theorem forall₂_mem_right {α β : Type} {R : α → β → Prop} {as : List α}
    {bs : List β} (h : List.Forall₂ R as bs) :
    ∀ b ∈ bs, ∃ a ∈ as, R a b := by
  induction h with
  | nil => intro b hb; cases hb
  | cons hR htail ih =>
      intro b hb
      rcases List.mem_cons.mp hb with heq | hb'
      · subst heq
        exact ⟨_, List.mem_cons_self _ _, hR⟩
      · obtain ⟨a, ha, hr⟩ := ih b hb'
        exact ⟨a, List.mem_cons_of_mem _ ha, hr⟩

/-- C8: serializing the message built for an eligible record and parsing
it back yields the very same structure, with the subject identifier
(`NIP`), the ordered two-element `last_successful_downloads` pair (values
passed through unchanged, nulls included), and the `iteration` field all
intact.  The record's fields range over the data model's value shapes
(null or pass-through strings, captured by `jsonSafe`). -/
theorem outbound_message_round_trip (item : ConfigRecord) (body : String)
    (h1 : jsonSafe item.PartitionKey = true)
    (h2 : jsonSafe item.last_successfull_download_run = true)
    (h3 : jsonSafe item.penultimate_successfull_download_run = true)
    (hd : jsonDumps (buildMessage item) = .ok body) :
    jsonLoads body = some (buildMessage item) ∧
    pyValSubscript (buildMessage item) "NIP" = .ok item.PartitionKey ∧
    pyValSubscript (buildMessage item) "last_successful_downloads" =
      .ok (.list (.cons item.last_successfull_download_run
        (.cons item.penultimate_successfull_download_run .nil))) ∧
    pyValSubscript (buildMessage item) "iteration" = .ok (.int 0) :=
  ⟨jsonLoads_dumps (buildMessage_safe item h1 h2 h3) hd,
   buildMessage_nip item, buildMessage_downloads item,
   buildMessage_iteration item⟩

/-- Witness for C8 on the spec's scenario record (null timestamps): the
rendered message parses back with both nulls preserved in order. -/
theorem outbound_message_round_trip_witness :
    jsonLoads "\x7b\"NIP\": \"1111111111\", \"last_successful_downloads\": [null, null], \"iteration\": 0, \"query_elem_ref_no\": null, \"part_elem_ref_no\": null\x7d" =
      some (buildMessage ⟨.str "1111111111", .null, .null⟩) ∧
    pyValSubscript (buildMessage ⟨.str "1111111111", .null, .null⟩) "NIP" =
      .ok (.str "1111111111") ∧
    pyValSubscript (buildMessage ⟨.str "1111111111", .null, .null⟩)
      "last_successful_downloads" =
      .ok (.list (.cons .null (.cons .null .nil))) ∧
    pyValSubscript (buildMessage ⟨.str "1111111111", .null, .null⟩) "iteration" =
      .ok (.int 0) :=
  outbound_message_round_trip ⟨.str "1111111111", .null, .null⟩
    "\x7b\"NIP\": \"1111111111\", \"last_successful_downloads\": [null, null], \"iteration\": 0, \"query_elem_ref_no\": null, \"part_elem_ref_no\": null\x7d"
    (by decide) rfl rfl rfl

/-- C10: every message produced by `create_list_of_messages` carries
`iteration = 0` (the module constant `ITERATION`, never incremented), so
`get_iteration_int` recovers `0` from the serialized message, the delay
`calculate_delay_minutes ITERATION mult = ITERATION * mult` is `0` for
every multiplier, and `get_scheduled_enqueue_time_utc` schedules the
message at exactly the current time. -/
theorem scheduled_delay_always_zero (f : PyVal → PyVal → Except PyExc Bool)
    (w : PyVal) (qr : List ConfigRecord) (msgs : List String) (now mult : Int)
    (hok : create_list_of_messages f w qr = .ok msgs)
    (hsafe : ∀ item ∈ qr, jsonSafe (buildMessage item) = true) :
    ∀ m ∈ msgs, get_iteration_int m = .ok (.int 0) ∧
      calculate_delay_minutes ITERATION mult = 0 ∧
      get_scheduled_enqueue_time_utc now m mult = .ok now := by
  unfold create_list_of_messages at hok
  cases hl : messagesLoop f w qr with
  | error e => rw [hl] at hok; exact absurd hok (by simp)
  | ok l =>
      rw [hl] at hok
      cases l with
      | nil => exact absurd hok (by simp)
      | cons m0 ms =>
          simp only [BuildOutcome.ok.injEq] at hok
          subst hok
          intro m hm
          obtain ⟨item, hitem, hser⟩ :=
            forall₂_mem_right (messagesLoop_forall₂ f w qr _ hl) m hm
          have hmem : item ∈ qr := (List.mem_filter.mp hitem).1
          have hsafe' := hsafe item hmem
          have hloads : jsonLoads m = some (buildMessage item) :=
            jsonLoads_dumps hsafe' hser
          refine ⟨?_, ?_, ?_⟩
          · unfold get_iteration_int
            rw [hloads]
            simp only []
            exact buildMessage_iteration item
          · unfold calculate_delay_minutes ITERATION
            ring
          · unfold get_scheduled_enqueue_time_utc
            rw [hloads]
            simp only []
            rw [buildMessage_iteration item, exceptBindOk]
            simp [pyIterTimes, exceptBindOk]

/-- Witness for C10: the single message built from a never-checked record
parses back to iteration `0`, gets delay `0` with multiplier `10`, and is
scheduled at the current time `1234`. -/
theorem scheduled_delay_always_zero_witness :
    get_iteration_int "\x7b\"NIP\": \"1111111111\", \"last_successful_downloads\": [\"null\", null], \"iteration\": 0, \"query_elem_ref_no\": null, \"part_elem_ref_no\": null\x7d" =
      .ok (.int 0) ∧
    calculate_delay_minutes ITERATION 10 = 0 ∧
    get_scheduled_enqueue_time_utc 1234 "\x7b\"NIP\": \"1111111111\", \"last_successful_downloads\": [\"null\", null], \"iteration\": 0, \"query_elem_ref_no\": null, \"part_elem_ref_no\": null\x7d" 10 =
      .ok 1234 :=
  scheduled_delay_always_zero (checked_recently 0) (PyVal.timedelta 7200)
    [⟨.str "1111111111", .str "null", .null⟩] _ 1234 10 rfl
    (by intro item hmi; rcases List.mem_singleton.mp hmi with rfl; decide)
    "\x7b\"NIP\": \"1111111111\", \"last_successful_downloads\": [\"null\", null], \"iteration\": 0, \"query_elem_ref_no\": null, \"part_elem_ref_no\": null\x7d"
    (by exact List.mem_singleton.mpr rfl)
